import Mathlib

/-!
Shallow embedding of the goletan services-library core: the composite
discovery aggregator, the discovery strategies' filter predicates and
one-shot discover calls, and the service registry with its bulk
lifecycle operations.  Every definition is translated from the Go
source; doc comments name the file and function each one embeds.
Go string-keyed maps are modelled as association lists, Go errors as an
inductive carrying the data that the corresponding fmt.Errorf or
errors.New call folds into the message, and Go slices as Lean lists.
-/

namespace ServicesLib

/-- A Go map read m[k] with the string zero value for a missing key. -/
def mapGet (m : List (String × String)) (k : String) : String :=
  match m.find? (fun kv => kv.1 == k) with
  | some kv => kv.2
  | none => ""

/-- The ok component of the two-valued Go map read v, ok := m[k]. -/
def mapHas (m : List (String × String)) (k : String) : Bool :=
  (m.find? (fun kv => kv.1 == k)).isSome

/-- shared/types ServicePort. -/
structure ServicePort where
  name : String
  port : Int
  protocol : String
deriving DecidableEq, Repr

/-- shared/types ServiceEndpoint (the services-library variant whose Tags
is a map\[string\]string). -/
structure ServiceEndpoint where
  name : String
  address : String
  ports : List ServicePort
  version : String
  tags : List (String × String)
deriving DecidableEq, Repr

/-- internal/types ServiceEndpoint of the older variant, whose Tags field
is a \[\]string; produced by the dns.go strategy. -/
structure EndpointV0 where
  name : String
  address : String
  ports : List ServicePort
  version : String
  tagsList : List String
deriving DecidableEq, Repr

/-- shared/types Filter. -/
structure Filter where
  labels : List (String × String)
  tags : List (String × String)
deriving DecidableEq, Repr

/-- strategies/utils.go MatchLabels: for each key of the filter map the
service map is read with the zero-value convention (a missing key reads
as the empty string) and compared. -/
def MatchLabels (serviceLabels filterLabels : List (String × String)) : Bool :=
  filterLabels.all (fun kv => mapGet serviceLabels kv.1 == kv.2)

/-- strategies/utils.go MatchTags: for each key of the filter map the
service map must contain the key and hold an equal value. -/
def MatchTags (serviceTags filterTags : List (String × String)) : Bool :=
  filterTags.all (fun kv => mapHas serviceTags kv.1 && (mapGet serviceTags kv.1 == kv.2))

/-- part_000 (strategies/kubernetes.go) isDiscoverable: an endpoint's tag
map is tested against the filter's tags and against the filter's labels,
the two combined with OR. -/
def isDiscoverable (endpointTags : List (String × String)) (f : Filter) : Bool :=
  MatchTags endpointTags f.tags || MatchLabels endpointTags f.labels

/-- The fields of a Docker Swarm service consulted by the swarm strategy's
filter step: Spec.Labels and Spec.Annotations.Labels. -/
structure SwarmService where
  specName : String
  specLabels : List (String × String)
  annotationLabels : List (String × String)
deriving DecidableEq, Repr

/-- composite.go DockerSwarmStrategy.Discover filter step (lines 172-180):
with a non-nil filter a service is kept iff MatchLabels on Spec.Labels
and MatchTags on Spec.Annotations.Labels both hold (two guarded
continue statements, hence AND). -/
def swarmKeeps (svc : SwarmService) (f : Option Filter) : Bool :=
  match f with
  | none => true
  | some f => MatchLabels svc.specLabels f.labels && MatchTags svc.annotationLabels f.tags

/-- A Go error value.  The constructors carry the data that the source's
errors.New / fmt.Errorf call folds into its message; individual strategy
and service errors are plain strings. -/
inductive GoError where
  /-- errors.New / a plain wrapped error message. -/
  | simple (s : String)
  /-- composite.go Discover: fmt.Errorf("no services discovered in
  namespace: %s, errors: %v", namespace, strategyErrors). -/
  | noServicesDiscovered (ns : String) (errs : List String)
  /-- part_003 processAllServices: fmt.Errorf("failed to %s one or more
  services-library: %v", action, operationErrors). -/
  | aggregateFailure (action : String) (errs : List String)
deriving DecidableEq, Repr

/-- The outcome that one strategy's Discover call delivers to the
composite loop: endpoints or a Go error message. -/
abbrev StratOutcome := Except String (List ServiceEndpoint)

/-- The strategy loop of composite.go CompositeDiscovery.Discover
(lines 32-41): on error the error is appended to strategyErrors, on
success the endpoints are appended to discovered, in strategy order. -/
def discoverLoop : List StratOutcome → List ServiceEndpoint → List String →
    List ServiceEndpoint × List String
  | [], discovered, errs => (discovered, errs)
  | Except.error e :: rest, discovered, errs => discoverLoop rest discovered (errs ++ [e])
  | Except.ok eps :: rest, discovered, errs => discoverLoop rest (discovered ++ eps) errs

/-- composite.go CompositeDiscovery.Discover (lines 28-48): runs the
strategy loop, then fails with the aggregate no-services error whenever
the merged slice is empty, and succeeds with the merged slice
otherwise. -/
def compositeDiscover (ns : String) (outcomes : List StratOutcome) :
    Except GoError (List ServiceEndpoint) :=
  let r := discoverLoop outcomes [] []
  if r.1.isEmpty then Except.error (GoError.noServicesDiscovered ns r.2)
  else Except.ok r.1

/-- The strategy loop of discovery.go CompositeDiscovery.Discover
(lines 50-59): failures are only logged, successes are appended to
discovered in strategy order. -/
def discoverLoopLogOnly : List StratOutcome → List ServiceEndpoint → List ServiceEndpoint
  | [], discovered => discovered
  | Except.error _ :: rest, discovered => discoverLoopLogOnly rest discovered
  | Except.ok eps :: rest, discovered => discoverLoopLogOnly rest (discovered ++ eps)

/-- discovery.go CompositeDiscovery.Discover (lines 47-62): returns the
merged slice with a nil error unconditionally; strategy failures are
surfaced only as log warnings. -/
def compositeDiscoverLogOnly (outcomes : List StratOutcome) :
    Except GoError (List ServiceEndpoint) :=
  Except.ok (discoverLoopLogOnly outcomes [])

/-- The endpoints contributed by the successful strategies, in strategy
order with each strategy's own response order kept. -/
def okEndpoints (outcomes : List StratOutcome) : List ServiceEndpoint :=
  (outcomes.filterMap (fun o => match o with
    | Except.ok eps => some eps
    | Except.error _ => none)).flatten

/-- The errors of the failed strategies, in strategy order. -/
def stratErrors (outcomes : List StratOutcome) : List String :=
  outcomes.filterMap (fun o => match o with
    | Except.ok _ => none
    | Except.error e => some e)

theorem discoverLoop_spec (outcomes : List StratOutcome)
    (discovered : List ServiceEndpoint) (errs : List String) :
    discoverLoop outcomes discovered errs =
      (discovered ++ okEndpoints outcomes, errs ++ stratErrors outcomes) := by
  induction outcomes generalizing discovered errs with
  | nil => simp [discoverLoop, okEndpoints, stratErrors]
  | cons o rest ih =>
    cases o with
    | error e =>
      simp [discoverLoop, ih, okEndpoints, stratErrors]
    | ok eps =>
      simp [discoverLoop, ih, okEndpoints, stratErrors]

theorem discoverLoopLogOnly_spec (outcomes : List StratOutcome)
    (discovered : List ServiceEndpoint) :
    discoverLoopLogOnly outcomes discovered = discovered ++ okEndpoints outcomes := by
  induction outcomes generalizing discovered with
  | nil => simp [discoverLoopLogOnly, okEndpoints]
  | cons o rest ih =>
    cases o with
    | error e => simp [discoverLoopLogOnly, ih, okEndpoints]
    | ok eps => simp [discoverLoopLogOnly, ih, okEndpoints]

theorem compositeDiscover_spec (ns : String) (outcomes : List StratOutcome) :
    compositeDiscover ns outcomes =
      if okEndpoints outcomes = [] then
        Except.error (GoError.noServicesDiscovered ns (stratErrors outcomes))
      else Except.ok (okEndpoints outcomes) := by
  simp [compositeDiscover, discoverLoop_spec, List.isEmpty_iff]

theorem compositeDiscoverLogOnly_spec (outcomes : List StratOutcome) :
    compositeDiscoverLogOnly outcomes = Except.ok (okEndpoints outcomes) := by
  simp [compositeDiscoverLogOnly, discoverLoopLogOnly_spec]

/-- A managed service as the registry sees it: its name and the outcome
of each lifecycle method (none = nil error). -/
structure Service where
  name : String
  initErr : Option String
  startErr : Option String
  stopErr : Option String
deriving DecidableEq, Repr

/-- The registry's name-to-service store (the Go map, or the ServiceCache
sync.Map of part_006), as an association list with unique keys. -/
abbrev RegistryState := List (String × Service)

/-- The Go map read service, exists := r.services\x7bname\x7d (and
ServiceCache.get / ServiceCache.exists of part_006). -/
def regLookup (st : RegistryState) (k : String) : Option Service :=
  (st.find? (fun e => e.1 == k)).map (fun e => e.2)

/-- registry.go Registry.Register (lines 34-47): when the name already
exists the call fails with the already-registered error and the map is
untouched; otherwise the service is stored under its name.  part_000 and
part_003 Register behave identically up to the error message. -/
def Register (st : RegistryState) (svc : Service) : RegistryState × Option GoError :=
  if (regLookup st svc.name).isSome then
    (st, some (GoError.simple ("service already registered: " ++ svc.name)))
  else
    (st ++ [(svc.name, svc)], none)

/-- part_008 Registry.RegisterService (lines 40-53): when the name already
exists the function logs at Error level but returns nil, leaving the map
untouched; otherwise the service is stored under its name. -/
def RegisterService (st : RegistryState) (svc : Service) : RegistryState × Option GoError :=
  if (regLookup st svc.name).isSome then
    (st, none)
  else
    (st ++ [(svc.name, svc)], none)

/-- Which lifecycle method a bulk operation dispatches. -/
inductive LifecycleOp where
  | initOp
  | startOp
  | stopOp
deriving DecidableEq, Repr

/-- The per-service invocation: service.Initialize() / Start() / Stop(). -/
def opCall (op : LifecycleOp) (svc : Service) : Option String :=
  match op with
  | LifecycleOp.initOp => svc.initErr
  | LifecycleOp.startOp => svc.startErr
  | LifecycleOp.stopOp => svc.stopErr

/-- The iteration of part_003 processAllServices over cache.rangeAll
(part_006, lines 97-107) and of the registry.go for-range loops: the
lifecycle method is invoked once per registered entry, with no break or
early return, yielding per-service results in iteration order. -/
def invokeAll (st : RegistryState) (op : LifecycleOp) : List (String × Option String) :=
  st.map (fun e => (e.1, opCall op e.2))

/-- The operationErrors / initErrors / startErrors / stopErrors slice the
loops accumulate: the errors of the failing services in iteration
order. -/
def collectErrors (st : RegistryState) (op : LifecycleOp) : List String :=
  (invokeAll st op).filterMap (fun r => r.2)

/-- part_003 Registry.processAllServices (lines 77-96), with the registry
store threaded explicitly: the loop only reads the cache and calls the
lifecycle method, and the call fails with the aggregate error iff the
accumulated error slice is non-empty. -/
def processAllServices (st : RegistryState) (action : String) (op : LifecycleOp) :
    RegistryState × Option GoError :=
  let errs := collectErrors st op
  (st, if errs.isEmpty then none else some (GoError.aggregateFailure action errs))

/-- part_003 Registry.InitializeAll. -/
def InitializeAll (st : RegistryState) : RegistryState × Option GoError :=
  processAllServices st "initialize" LifecycleOp.initOp

/-- part_003 Registry.StartAll. -/
def StartAll (st : RegistryState) : RegistryState × Option GoError :=
  processAllServices st "start" LifecycleOp.startOp

/-- part_003 Registry.StopAll. -/
def StopAll (st : RegistryState) : RegistryState × Option GoError :=
  processAllServices st "stop" LifecycleOp.stopOp

/-- registry.go Registry.StartAll (lines 78-103): same full iteration,
but on failure the call returns startErrors\x7b0\x7d, the first failing
service's error. -/
def StartAllRegistryGo (st : RegistryState) : RegistryState × Option GoError :=
  let errs := collectErrors st LifecycleOp.startOp
  (st, match errs with
    | [] => none
    | e :: _ => some (GoError.simple e))

/-- A Go context as the one-shot discover calls observe it:
ctx.Deadline() returns (some d, true) or (none, false), with d = 0
standing for the zero time.Time, and now is the wall clock at call
time, so the deadline has already expired when d < now. -/
structure GoContext where
  deadline : Option Nat
  now : Nat
deriving DecidableEq, Repr

/-- Whether the context's deadline has already expired at call time. -/
def GoContext.expired (ctx : GoContext) : Bool :=
  match ctx.deadline with
  | some d => decide (d < ctx.now)
  | none => false

/-- kubernetes.go normalizeClusterIP. -/
def normalizeClusterIP (ip : String) : String :=
  if ip = "None" then "" else ip

/-- kubernetes.go validateEndpoint: the error, if any, for an endpoint
missing a name, an address, or ports. -/
def validateEndpoint (e : ServiceEndpoint) : Option String :=
  if e.name = "" then some "missing name"
  else if e.address = "" then some "missing address"
  else if e.ports.isEmpty then some "missing ports"
  else none

/-- The fields of a Kubernetes v1.Service consumed by kubernetes.go
Discover. -/
structure K8sSvc where
  name : String
  clusterIP : String
  ports : List ServicePort
deriving DecidableEq, Repr

/-- The endpoint kubernetes.go Discover builds from one listed service,
kept only when validateEndpoint accepts it. -/
def k8sEndpointOf (svc : K8sSvc) : Option ServiceEndpoint :=
  let e : ServiceEndpoint :=
    { name := svc.name, address := normalizeClusterIP svc.clusterIP,
      ports := svc.ports, version := "", tags := [] }
  match validateEndpoint e with
  | some _ => none
  | none => some e

/-- kubernetes.go KubernetesDiscovery.Discover (lines 41-79).  The
upfront guard (lines 41-44) fails when ctx.Deadline() reports no
deadline or the zero time; otherwise the call proceeds to the backend
(in-cluster config, client construction and the service List call,
abstracted as one fallible query).  The Bool records whether the backend
query was attempted. -/
def kubernetesDiscover (ctx : GoContext) (backend : Except String (List K8sSvc)) :
    Except String (List ServiceEndpoint) × Bool :=
  match ctx.deadline with
  | none => (Except.error "context must have a timeout or deadline", false)
  | some d =>
    if d = 0 then (Except.error "context must have a timeout or deadline", false)
    else
      match backend with
      | Except.error e => (Except.error e, true)
      | Except.ok svcs => (Except.ok (svcs.filterMap k8sEndpointOf), true)

/-- dns.go parseTXTRecord: a fixed example endpoint regardless of the
record's content. -/
def parseTXTRecord (record : String) : EndpointV0 :=
  { name := "example-service", address := "10.0.0.1",
    ports := [{ name := "http", port := 8080, protocol := "TCP" }],
    version := "1.0.0", tagsList := ["dns", "example"] }

/-- dns.go DNSDiscovery.Discover (lines 20-33): the TXT lookup is issued
unconditionally — the context is never consulted — and every record is
mapped through parseTXTRecord.  The Bool records whether the lookup was
attempted, which is always. -/
def dnsDiscover (ctx : GoContext) (lookup : Except String (List String)) :
    Except String (List EndpointV0) × Bool :=
  match lookup with
  | Except.error e => (Except.error e, true)
  | Except.ok records => (Except.ok (records.map parseTXTRecord), true)

/-- The phase of one per-strategy watcher goroutine of composite.go
CompositeDiscovery.Watch (lines 63-81): it is opening while
strategy.Watch is in flight, forwarding while ranging over the
strategy's event channel, and done once it has returned (wg.Done). -/
inductive WatcherPhase where
  | opening
  | forwarding
  | done
deriving DecidableEq, Repr

/-- The state of one Watch call's concurrency skeleton: the phase of each
per-strategy watcher goroutine, and whether the closer goroutine has
closed the aggregated channel. -/
structure WatchState where
  watchers : List WatcherPhase
  closed : Bool
deriving DecidableEq, Repr

/-- Replace watcher i's phase, leaving the rest of the state alone. -/
def setWatcher (s : WatchState) (i : Nat) (p : WatcherPhase) : WatchState :=
  { watchers := s.watchers.set i p, closed := s.closed }

/-- The scheduler-nondeterministic steps of composite.go
CompositeDiscovery.Watch (lines 50-92), one constructor per way a
goroutine can advance:
openOk — strategy.Watch returns a channel and the watcher enters its
forwarding loop;
openFailed — strategy.Watch returns an error, the warning is logged and
the watcher returns at once (lines 68-73);
forwardDone — the watcher's range loop ends, because the strategy closed
its event channel or because the watchCtx.Done branch fired (lines
76-82), and the watcher returns;
closeAgg — the closer goroutine (lines 86-90) passes wg.Wait, which
requires every watcher to have reached wg.Done, cancels the derived
context and closes the aggregated channel. -/
inductive WatchStep : WatchState → WatchState → Prop where
  | openOk (s : WatchState) (i : Nat)
      (h : s.watchers.get? i = some WatcherPhase.opening) :
      WatchStep s (setWatcher s i WatcherPhase.forwarding)
  | openFailed (s : WatchState) (i : Nat)
      (h : s.watchers.get? i = some WatcherPhase.opening) :
      WatchStep s (setWatcher s i WatcherPhase.done)
  | forwardDone (s : WatchState) (i : Nat)
      (h : s.watchers.get? i = some WatcherPhase.forwarding) :
      WatchStep s (setWatcher s i WatcherPhase.done)
  | closeAgg (s : WatchState)
      (h : ∀ w ∈ s.watchers, w = WatcherPhase.done)
      (h2 : s.closed = false) :
      WatchStep s { watchers := s.watchers, closed := true }

/-- The state right after the Watch call returns to its caller: one
watcher goroutine per strategy, all still opening, aggregated channel
open. -/
def initWatchState (n : Nat) : WatchState :=
  { watchers := List.replicate n WatcherPhase.opening, closed := false }

/-- composite.go CompositeDiscovery.Watch as seen by its caller: it
spawns the n watcher goroutines and the closer and returns the
aggregated channel with a nil error — the function has no failing
return path. -/
def compositeWatchCall (n : Nat) : WatchState × Option GoError :=
  (initWatchState n, none)

/-- The states a Watch call's skeleton can reach. -/
def WatchReachable (n : Nat) (s : WatchState) : Prop :=
  Relation.ReflTransGen WatchStep (initWatchState n) s

theorem watchStep_closed_all_done (s s' : WatchState)
    (hstep : WatchStep s s')
    (hinv : s.closed = true → ∀ w ∈ s.watchers, w = WatcherPhase.done) :
    s'.closed = true → ∀ w ∈ s'.watchers, w = WatcherPhase.done := by
  cases hstep with
  | openOk i h =>
    intro hc
    have hall := hinv hc
    have hmem : WatcherPhase.opening ∈ s.watchers := List.get?_mem h
    exact absurd (hall _ hmem) (by simp)
  | openFailed i h =>
    intro hc
    have hall := hinv hc
    have hmem : WatcherPhase.opening ∈ s.watchers := List.get?_mem h
    exact absurd (hall _ hmem) (by simp)
  | forwardDone i h =>
    intro hc
    have hall := hinv hc
    have hmem : WatcherPhase.forwarding ∈ s.watchers := List.get?_mem h
    exact absurd (hall _ hmem) (by simp)
  | closeAgg h h2 =>
    intro _
    exact h

theorem watchReachable_closed_all_done (n : Nat) (s : WatchState)
    (hreach : WatchReachable n s) :
    s.closed = true → ∀ w ∈ s.watchers, w = WatcherPhase.done := by
  induction hreach with
  | refl =>
    intro hc
    simp [initWatchState] at hc
  | tail _ hstep ih =>
    exact watchStep_closed_all_done _ _ hstep ih

theorem matchLabels_eq_true_iff (serviceLabels filterLabels : List (String × String)) :
    MatchLabels serviceLabels filterLabels = true ↔
      ∀ kv ∈ filterLabels, mapGet serviceLabels kv.1 = kv.2 := by
  simp [MatchLabels, List.all_eq_true]

theorem matchTags_eq_true_iff (serviceTags filterTags : List (String × String)) :
    MatchTags serviceTags filterTags = true ↔
      ∀ kv ∈ filterTags, mapHas serviceTags kv.1 = true ∧ mapGet serviceTags kv.1 = kv.2 := by
  simp [MatchTags, List.all_eq_true]

theorem mapGet_of_not_has (m : List (String × String)) (k : String)
    (h : mapHas m k = false) : mapGet m k = "" := by
  unfold mapGet mapHas at *
  cases hf : m.find? (fun kv => kv.1 == k) with
  | none => simp
  | some kv => rw [hf] at h; simp at h

theorem matchLabels_empty (serviceLabels : List (String × String)) :
    MatchLabels serviceLabels [] = true := rfl

theorem matchTags_empty (serviceTags : List (String × String)) :
    MatchTags serviceTags [] = true := rfl

/-- Modelled from the claim wording of C4, for comparison with the code:
match-by-X requires every key of the filter's X map to be PRESENT in the
endpoint's map with an equal value, and the endpoint is said to match
when match-by-tag or match-by-label holds. -/
def specMatchBy (endpointMap filterMap : List (String × String)) : Bool :=
  filterMap.all (fun kv => mapHas endpointMap kv.1 && (mapGet endpointMap kv.1 == kv.2))

/-- Modelled from the claim wording of C4: the two presence-based
predicate families combined with OR. -/
def specMatches (endpointTags : List (String × String)) (f : Filter) : Bool :=
  specMatchBy endpointTags f.tags || specMatchBy endpointTags f.labels

theorem okEndpoints_append (a b : List StratOutcome) :
    okEndpoints (a ++ b) = okEndpoints a ++ okEndpoints b := by
  simp [okEndpoints]

theorem okEndpoints_cons_error (e : String) (rest : List StratOutcome) :
    okEndpoints (Except.error e :: rest) = okEndpoints rest := by
  simp [okEndpoints]

theorem okEndpoints_map_ok (es : List (List ServiceEndpoint)) :
    okEndpoints (es.map Except.ok) = es.flatten := by
  induction es with
  | nil => rfl
  | cons hd tl ih => simp [okEndpoints] at ih ⊢; simp [ih]

theorem stratErrors_map_ok (es : List (List ServiceEndpoint)) :
    stratErrors (es.map Except.ok) = [] := by
  induction es with
  | nil => rfl
  | cons hd tl ih =>
    simp only [List.map_cons, stratErrors, List.filterMap_cons] at ih ⊢
    simp [ih]

theorem okEndpoints_ne_nil_of_mem (l : List StratOutcome)
    (eps : List ServiceEndpoint) (hmem : Except.ok eps ∈ l) (hne : eps ≠ []) :
    okEndpoints l ≠ [] := by
  rcases List.exists_mem_of_ne_nil eps hne with ⟨x, hx⟩
  have hx2 : x ∈ okEndpoints l := by
    unfold okEndpoints
    rw [List.mem_flatten]
    refine ⟨eps, ?_, hx⟩
    exact List.mem_filterMap.mpr ⟨Except.ok eps, hmem, rfl⟩
  intro hnil
  rw [hnil] at hx2
  exact absurd hx2 (List.not_mem_nil x)

/-- A sample endpoint used by concrete witnesses. -/
def epA : ServiceEndpoint :=
  { name := "svc-a", address := "10.0.0.1", ports := [], version := "", tags := [] }

/-- A second sample endpoint used by concrete witnesses. -/
def epB : ServiceEndpoint :=
  { name := "svc-b", address := "10.0.0.2", ports := [], version := "", tags := [] }

/-- C1 counterexample: in the discovery.go variant of
CompositeDiscovery.Discover, a call whose single strategy fails yields an
empty merged result together with a nil error — not the aggregate error
that the claim requires for an empty merge with at least one strategy
failure, and the very same success-with-empty-list shape that an
empty-because-nothing-exists call produces. -/
theorem c1_counterexample :
    compositeDiscoverLogOnly [Except.error "strategy failed"] =
      Except.ok ([] : List ServiceEndpoint) := rfl

/-- C1 (amended): in the composite.go variant, Discover fails whenever
the merged result is empty, with the no-services error carrying exactly
the failed strategies' errors in strategy order — the error has the same
shape when no strategy failed, then carrying an empty list; in the
discovery.go variant, Discover always returns the merged result with a
nil error and strategy failures are surfaced only as log warnings. -/
theorem c1_empty_result_error_shape (ns : String) (outcomes : List StratOutcome) :
    (okEndpoints outcomes = [] → stratErrors outcomes ≠ [] →
      compositeDiscover ns outcomes =
        Except.error (GoError.noServicesDiscovered ns (stratErrors outcomes))) ∧
    (okEndpoints outcomes = [] → stratErrors outcomes = [] →
      compositeDiscover ns outcomes =
        Except.error (GoError.noServicesDiscovered ns [])) ∧
    compositeDiscoverLogOnly outcomes = Except.ok (okEndpoints outcomes) := by
  refine ⟨?_, ?_, compositeDiscoverLogOnly_spec outcomes⟩
  · intro hempty _
    rw [compositeDiscover_spec, if_pos hempty]
  · intro hempty herrs
    rw [compositeDiscover_spec, if_pos hempty, herrs]

theorem c1_witness :
    compositeDiscover "payments" [Except.error "backend down"] =
      Except.error (GoError.noServicesDiscovered "payments" ["backend down"]) := by
  have h := (c1_empty_result_error_shape "payments" [Except.error "backend down"]).1
    (by decide) (by decide)
  simpa using h

/-- C2 counterexample: with a single strategy that succeeds with an
empty endpoint list (no strategy error at all), the composite.go variant
of Discover does not succeed with the empty union — it fails with the
no-services error carrying an empty failure list. -/
theorem c2_counterexample :
    compositeDiscover "prod" [Except.ok ([] : List ServiceEndpoint)] =
      Except.error (GoError.noServicesDiscovered "prod" []) := rfl

/-- C2 (amended): when every strategy succeeds, the discovery.go variant
of Discover succeeds with the concatenation of the per-strategy results
in strategy order — equal as a set to the union of the Eᵢ, each
strategy's contribution in its own response order; the composite.go
variant returns the same whenever that union is non-empty, but fails
with the empty-failure-list no-services error when all Eᵢ are empty. -/
theorem c2_aggregation_completeness (ns : String) (es : List (List ServiceEndpoint)) :
    compositeDiscoverLogOnly (es.map Except.ok) = Except.ok es.flatten ∧
    (es.flatten ≠ [] → compositeDiscover ns (es.map Except.ok) = Except.ok es.flatten) ∧
    (es.flatten = [] → compositeDiscover ns (es.map Except.ok) =
      Except.error (GoError.noServicesDiscovered ns [])) ∧
    ∀ e, e ∈ es.flatten ↔ ∃ ei ∈ es, e ∈ ei := by
  refine ⟨?_, ?_, ?_, fun e => List.mem_flatten⟩
  · rw [compositeDiscoverLogOnly_spec, okEndpoints_map_ok]
  · intro hne
    rw [compositeDiscover_spec, okEndpoints_map_ok, if_neg hne]
  · intro heq
    rw [compositeDiscover_spec, okEndpoints_map_ok, if_pos heq, stratErrors_map_ok]

theorem c2_witness :
    compositeDiscover "prod" [Except.ok [epA], Except.ok [epB]] =
      Except.ok [epA, epB] := by
  have h := (c2_aggregation_completeness "prod" [[epA], [epB]]).2.1 (by decide)
  simpa using h

/-- C5: with exactly one failing strategy and every other strategy
succeeding with a non-empty endpoint list (at least one such other
strategy), both Discover variants succeed with the concatenation of the
successful strategies' results — the failure neither aborts the others
nor empties the merged result. -/
theorem c5_partial_failure_tolerance (ns : String) (e : String)
    (pre post : List StratOutcome)
    (hok : ∀ r ∈ pre ++ post, ∃ eps, r = Except.ok eps ∧ eps ≠ ([] : List ServiceEndpoint))
    (hsome : pre ++ post ≠ []) :
    compositeDiscover ns (pre ++ Except.error e :: post) =
      Except.ok (okEndpoints pre ++ okEndpoints post) ∧
    compositeDiscoverLogOnly (pre ++ Except.error e :: post) =
      Except.ok (okEndpoints pre ++ okEndpoints post) := by
  have hsplit : okEndpoints (pre ++ Except.error e :: post) =
      okEndpoints pre ++ okEndpoints post := by
    rw [okEndpoints_append, okEndpoints_cons_error]
  have hne : okEndpoints (pre ++ Except.error e :: post) ≠ [] := by
    rcases List.exists_mem_of_ne_nil _ hsome with ⟨r, hr⟩
    rcases hok r hr with ⟨eps, rfl, hnnil⟩
    apply okEndpoints_ne_nil_of_mem _ eps _ hnnil
    rcases List.mem_append.mp hr with h | h
    · exact List.mem_append.mpr (Or.inl h)
    · exact List.mem_append.mpr (Or.inr (List.mem_cons_of_mem _ h))
  constructor
  · rw [compositeDiscover_spec, if_neg hne, hsplit]
  · rw [compositeDiscoverLogOnly_spec, hsplit]

theorem c5_witness :
    compositeDiscover "prod" [Except.ok [epA], Except.error "boom", Except.ok [epB]] =
      Except.ok [epA, epB] ∧
    compositeDiscoverLogOnly [Except.ok [epA], Except.error "boom", Except.ok [epB]] =
      Except.ok [epA, epB] := by
  have h := c5_partial_failure_tolerance "prod" "boom" [Except.ok [epA]] [Except.ok [epB]]
    (by
      intro r hr
      simp only [List.cons_append, List.nil_append, List.mem_cons,
        List.not_mem_nil, or_false] at hr
      rcases hr with h | h <;> subst h
      · exact ⟨[epA], rfl, by simp⟩
      · exact ⟨[epB], rfl, by simp⟩)
    (by simp)
  simpa [okEndpoints] using h

/-- The service stored by the first successful register in the C3
scenario. -/
def svcA : Service :=
  { name := "svc-a", initErr := none, startErr := none, stopErr := none }

/-- A different service carrying the same name, used for the duplicate
register in the C3 scenario. -/
def svcA2 : Service :=
  { name := "svc-a", initErr := some "init failed", startErr := none, stopErr := none }

/-- C3: registry.go Register satisfies the claim — the first register of
"svc-a" succeeds, and a duplicate register fails with the
already-registered error while leaving the stored entry untouched — but
part_008 RegisterService, called on the same duplicate, leaves the entry
untouched yet returns a nil error instead of failing, although it logs
the duplicate at Error level. -/
theorem c3_duplicate_register :
    Register [] svcA = ([("svc-a", svcA)], none) ∧
    Register [("svc-a", svcA)] svcA2 =
      ([("svc-a", svcA)], some (GoError.simple "service already registered: svc-a")) ∧
    RegisterService [("svc-a", svcA)] svcA2 = ([("svc-a", svcA)], none) := by
  refine ⟨rfl, ?_, rfl⟩
  rfl

/-- C4 counterexample: the filter with labels = \x7b"x": ""\x7d and tags =
\x7b"a": "b"\x7d, tested against an endpoint whose tag map is empty.  Under
the claim's presence-based reading neither family matches, so the
endpoint must not match; but isDiscoverable accepts it, because
MatchLabels reads the missing key "x" as the zero value "", which equals
the filter's value. -/
theorem c4_counterexample :
    isDiscoverable [] { labels := [("x", "")], tags := [("a", "b")] } = true ∧
    specMatches [] { labels := [("x", "")], tags := [("a", "b")] } = false := by
  refine ⟨rfl, rfl⟩

/-- C4 (amended): the kubernetes path's isDiscoverable combines the two
families with OR over the endpoint's single tag map — every key of the
filter's tags present with an equal value, OR every key of the filter's
labels reading (with the zero value for missing keys) as an equal value
— and an empty filter matches every endpoint; the docker swarm path
instead keeps a service only when MatchLabels on its spec labels AND
MatchTags on its annotation labels both hold. -/
theorem c4_match_semantics (endpointTags : List (String × String)) (f : Filter)
    (svc : SwarmService) :
    (isDiscoverable endpointTags f = true ↔
      ((∀ kv ∈ f.tags, mapHas endpointTags kv.1 = true ∧ mapGet endpointTags kv.1 = kv.2) ∨
       (∀ kv ∈ f.labels, mapGet endpointTags kv.1 = kv.2))) ∧
    (f.labels = [] → f.tags = [] → isDiscoverable endpointTags f = true) ∧
    (swarmKeeps svc (some f) = true ↔
      ((∀ kv ∈ f.labels, mapGet svc.specLabels kv.1 = kv.2) ∧
       (∀ kv ∈ f.tags, mapHas svc.annotationLabels kv.1 = true ∧
          mapGet svc.annotationLabels kv.1 = kv.2))) := by
  refine ⟨?_, ?_, ?_⟩
  · rw [isDiscoverable, Bool.or_eq_true, matchTags_eq_true_iff, matchLabels_eq_true_iff]
  · intro hl ht
    rw [isDiscoverable, ht, hl, matchTags_empty, Bool.true_or]
  · rw [swarmKeeps, Bool.and_eq_true, matchLabels_eq_true_iff, matchTags_eq_true_iff]

theorem c4_witness :
    isDiscoverable [("env", "prod")] { labels := [], tags := [] } = true :=
  (c4_match_semantics [("env", "prod")] { labels := [], tags := [] }
    { specName := "s", specLabels := [], annotationLabels := [] }).2.1 rfl rfl

/-- C10: MatchTags demands that each filter key exist in the service map
with an equal value, MatchLabels only that the zero-value read equal the
filter value — so a filter entry with the empty-string value matches a
service lacking the key under MatchLabels but not under MatchTags. -/
theorem c10_missing_key_asymmetry (serviceMap filterMap : List (String × String))
    (k : String) :
    (MatchTags serviceMap filterMap = true ↔
      ∀ kv ∈ filterMap, mapHas serviceMap kv.1 = true ∧ mapGet serviceMap kv.1 = kv.2) ∧
    (MatchLabels serviceMap filterMap = true ↔
      ∀ kv ∈ filterMap, mapGet serviceMap kv.1 = kv.2) ∧
    (mapHas serviceMap k = false →
      MatchLabels serviceMap [(k, "")] = true ∧ MatchTags serviceMap [(k, "")] = false) := by
  refine ⟨matchTags_eq_true_iff _ _, matchLabels_eq_true_iff _ _, ?_⟩
  intro hmiss
  constructor
  · rw [matchLabels_eq_true_iff]
    intro kv hkv
    simp only [List.mem_singleton] at hkv
    subst hkv
    exact mapGet_of_not_has _ _ hmiss
  · rw [MatchTags]
    simp [hmiss]

theorem c10_witness :
    MatchLabels [("a", "1")] [("b", "")] = true ∧
    MatchTags [("a", "1")] [("b", "")] = false :=
  (c10_missing_key_asymmetry [("a", "1")] [("b", "")] "b").2.2 rfl

/-- C6: each bulk lifecycle operation invokes the lifecycle method on
every registered service — the invocation list covers exactly the
registered names in iteration order, whatever the per-service outcomes —
and returns an error iff at least one invocation failed: part_003's
processAllServices then reports the aggregate of all failures, and
registry.go's StartAll reports the first failure. -/
theorem c6_bulk_lifecycle_isolation (st : RegistryState) (action : String)
    (op : LifecycleOp) :
    (invokeAll st op).map Prod.fst = st.map Prod.fst ∧
    ((processAllServices st action op).2 = none ↔ collectErrors st op = []) ∧
    (∀ gerr, (processAllServices st action op).2 = some gerr →
      gerr = GoError.aggregateFailure action (collectErrors st op) ∧
      collectErrors st op ≠ []) ∧
    ((StartAllRegistryGo st).2 = none ↔ collectErrors st LifecycleOp.startOp = []) ∧
    (∀ gerr, (StartAllRegistryGo st).2 = some gerr →
      ∃ e rest, collectErrors st LifecycleOp.startOp = e :: rest ∧
        gerr = GoError.simple e) := by
  refine ⟨?_, ?_, ?_, ?_, ?_⟩
  · simp [invokeAll]
  · simp only [processAllServices]
    by_cases h : (collectErrors st op).isEmpty
    · simp [h, List.isEmpty_iff.mp h]
    · simp [h]
      intro hnil
      rw [hnil] at h
      simp at h
  · intro gerr hg
    simp only [processAllServices] at hg
    by_cases h : (collectErrors st op).isEmpty
    · rw [if_pos h] at hg
      exact absurd hg (by simp)
    · rw [if_neg h] at hg
      refine ⟨by injection hg with h2; exact h2.symm, ?_⟩
      intro hnil
      rw [hnil] at h
      simp at h
  · simp only [StartAllRegistryGo]
    cases hc : collectErrors st LifecycleOp.startOp with
    | nil => simp
    | cons e rest => simp
  · intro gerr hg
    simp only [StartAllRegistryGo] at hg
    cases hc : collectErrors st LifecycleOp.startOp with
    | nil => rw [hc] at hg; exact absurd hg (by simp)
    | cons e rest =>
      rw [hc] at hg
      exact ⟨e, rest, rfl, by injection hg with h2; exact h2.symm⟩

/-- A service whose Start fails, for the C6 witness. -/
def svcFail : Service :=
  { name := "svc-f", initErr := none, startErr := some "start failed", stopErr := none }

theorem c6_witness :
    (invokeAll [("svc-a", svcA), ("svc-f", svcFail)] LifecycleOp.startOp).map Prod.fst =
      ["svc-a", "svc-f"] ∧
    GoError.aggregateFailure "start" ["start failed"] =
      GoError.aggregateFailure "start"
        (collectErrors [("svc-a", svcA), ("svc-f", svcFail)] LifecycleOp.startOp) ∧
    collectErrors [("svc-a", svcA), ("svc-f", svcFail)] LifecycleOp.startOp ≠ [] ∧
    ∃ e rest,
      collectErrors [("svc-a", svcA), ("svc-f", svcFail)] LifecycleOp.startOp =
        e :: rest ∧ GoError.simple "start failed" = GoError.simple e := by
  have h := c6_bulk_lifecycle_isolation [("svc-a", svcA), ("svc-f", svcFail)]
    "start" LifecycleOp.startOp
  have h2 := h.2.2.1 (GoError.aggregateFailure "start" ["start failed"]) rfl
  have h3 := h.2.2.2.2 (GoError.simple "start failed") rfl
  exact ⟨by simpa using h.1, h2.1, h2.2, h3⟩

/-- C9: the bulk lifecycle operations only read the store — part_003's
InitializeAll, StartAll and StopAll via cache.rangeAll, and registry.go's
StartAll via its read-locked range loop — so every one of them returns
the registry state unchanged, whatever each service's outcome. -/
theorem c9_bulk_ops_frame (st : RegistryState) :
    (InitializeAll st).1 = st ∧
    (StartAll st).1 = st ∧
    (StopAll st).1 = st ∧
    (StartAllRegistryGo st).1 = st := by
  refine ⟨rfl, rfl, rfl, rfl⟩

/-- A Kubernetes service used in the C7 counterexample. -/
def k8sSvcA : K8sSvc :=
  { name := "svc-a", clusterIP := "10.1.2.3",
    ports := [{ name := "http", port := 80, protocol := "TCP" }] }

/-- The endpoint kubernetes.go builds from k8sSvcA. -/
def epK : ServiceEndpoint :=
  { name := "svc-a", address := "10.1.2.3",
    ports := [{ name := "http", port := 80, protocol := "TCP" }],
    version := "", tags := [] }

/-- C7 counterexample: a context whose deadline (5) already lies before
the call time (10) is expired, yet kubernetes.go Discover still attempts
the backend query and succeeds — no Timeout error, no fail-fast — and
dns.go Discover issues its TXT lookup although the same expired context
is in scope. -/
theorem c7_counterexample :
    GoContext.expired { deadline := some 5, now := 10 } = true ∧
    kubernetesDiscover { deadline := some 5, now := 10 } (Except.ok [k8sSvcA]) =
      (Except.ok [epK], true) ∧
    dnsDiscover { deadline := some 5, now := 10 } (Except.ok ["rec"]) =
      (Except.ok [parseTXTRecord "rec"], true) := by
  refine ⟨rfl, rfl, rfl⟩

/-- C7 (amended): kubernetes.go Discover fails upfront — with the
context-must-have-a-deadline error, before any backend work — exactly
when ctx.Deadline() reports no deadline or the zero time; whenever a
non-zero deadline is present the backend query is attempted regardless
of whether that deadline has already expired, and dns.go Discover
performs its lookup unconditionally, never consulting the context. -/
theorem c7_deadline_guard (ctx : GoContext) (backend : Except String (List K8sSvc))
    (lookup : Except String (List String)) :
    (ctx.deadline = none → kubernetesDiscover ctx backend =
      (Except.error "context must have a timeout or deadline", false)) ∧
    (ctx.deadline = some 0 → kubernetesDiscover ctx backend =
      (Except.error "context must have a timeout or deadline", false)) ∧
    (∀ d, ctx.deadline = some d → d ≠ 0 → (kubernetesDiscover ctx backend).2 = true) ∧
    (dnsDiscover ctx lookup).2 = true := by
  obtain ⟨dl, now⟩ := ctx
  refine ⟨?_, ?_, ?_, ?_⟩
  · intro h
    cases h
    rfl
  · intro h
    cases h
    rfl
  · intro d h hd
    cases h
    rw [kubernetesDiscover.eq_def]
    dsimp only
    rw [if_neg hd]
    cases backend <;> rfl
  · cases lookup <;> rfl

theorem c7_witness :
    kubernetesDiscover { deadline := none, now := 0 } (Except.ok [k8sSvcA]) =
      (Except.error "context must have a timeout or deadline", false) ∧
    kubernetesDiscover { deadline := some 0, now := 0 } (Except.ok [k8sSvcA]) =
      (Except.error "context must have a timeout or deadline", false) ∧
    (kubernetesDiscover { deadline := some 7, now := 99 } (Except.ok [k8sSvcA])).2 = true := by
  refine ⟨(c7_deadline_guard { deadline := none, now := 0 } (Except.ok [k8sSvcA])
      (Except.ok [])).1 rfl,
    (c7_deadline_guard { deadline := some 0, now := 0 } (Except.ok [k8sSvcA])
      (Except.ok [])).2.1 rfl,
    (c7_deadline_guard { deadline := some 7, now := 99 } (Except.ok [k8sSvcA])
      (Except.ok [])).2.2.1 7 rfl (by decide)⟩

/-- C8: the Watch call itself never returns an error (there is no
failing return path); in every reachable state of its concurrency
skeleton the aggregated channel is closed only when every per-strategy
watcher has terminated (since the closer goroutine passes wg.Wait
first); and a watcher whose strategy.Watch failed takes the
log-and-return step, which is a legal step that flips only that
watcher to done, leaving every other watcher and the channel's open
state untouched. -/
theorem c8_merged_stream_closes_last (n : Nat) (s : WatchState) :
    (compositeWatchCall n).2 = none ∧
    (WatchReachable n s → s.closed = true →
      s.watchers = List.replicate s.watchers.length WatcherPhase.done) ∧
    (∀ i, s.watchers.get? i = some WatcherPhase.opening →
      WatchStep s (setWatcher s i WatcherPhase.done) ∧
      (setWatcher s i WatcherPhase.done).closed = s.closed ∧
      ∀ j, j ≠ i →
        (setWatcher s i WatcherPhase.done).watchers.get? j = s.watchers.get? j) := by
  refine ⟨rfl, ?_, ?_⟩
  · intro hreach hclosed
    exact List.eq_replicate_of_mem (watchReachable_closed_all_done n s hreach hclosed)
  · intro i h
    refine ⟨WatchStep.openFailed s i h, rfl, ?_⟩
    intro j hj
    show (s.watchers.set i WatcherPhase.done).get? j = s.watchers.get? j
    rw [List.get?_eq_getElem?, List.get?_eq_getElem?]
    exact List.getElem?_set_ne (fun hij => hj hij.symm)

theorem c8_witness :
    (compositeWatchCall 1).2 = none ∧
    ({ watchers := [WatcherPhase.done], closed := true } : WatchState).watchers =
      List.replicate
        ({ watchers := [WatcherPhase.done], closed := true } : WatchState).watchers.length
        WatcherPhase.done := by
  have hstep1 : WatchStep (initWatchState 1)
      ({ watchers := [WatcherPhase.done], closed := false } : WatchState) := by
    have h := WatchStep.openFailed (initWatchState 1) 0 (by rfl)
    simpa [initWatchState, setWatcher] using h
  have hstep2 : WatchStep ({ watchers := [WatcherPhase.done], closed := false } : WatchState)
      ({ watchers := [WatcherPhase.done], closed := true } : WatchState) := by
    exact WatchStep.closeAgg _ (by simp) rfl
  have hreach : WatchReachable 1 { watchers := [WatcherPhase.done], closed := true } :=
    Relation.ReflTransGen.tail (Relation.ReflTransGen.single hstep1) hstep2
  exact ⟨(c8_merged_stream_closes_last 1 { watchers := [WatcherPhase.done], closed := true }).1,
    (c8_merged_stream_closes_last 1 { watchers := [WatcherPhase.done], closed := true }).2.1
      hreach rfl⟩

end ServicesLib
